import Mathlib

/-!
Shallow embedding of `src/tbcml/files/base_script.js`, a runtime-injected
helper script for a dynamic-instrumentation host.  Host primitives
(module lookup, managed-runtime queries, the HTTP reader) are modelled as
fields of an explicit `Host` record; observable side effects (log
emissions, network operations) are modelled as an explicit `Effect`
trace; native process memory is modelled as a byte map `Mem`; the managed
heap used by the JString helpers is modelled as `JHeap`.
-/

namespace BaseScript

/-- Observable side effects the script can perform through the host. -/
inductive Effect where
  | androidLog (level : String) (tag : String) (message : String)
  | consoleLog (kind : String) (message : String)
  | openConnection (url : String)
  | readLineCall (result : Option String)
  | closeReader
  deriving DecidableEq, Repr

/-- An effect is a log emission (Android log or console output). -/
def Effect.isLog : Effect → Bool
  | .androidLog _ _ _ => true
  | .consoleLog _ _ => true
  | _ => false

/-- `logError`: `Log.e("tbcml", message)` then `console.error(message)`. -/
def logError (message : String) : List Effect :=
  [.androidLog "e" "tbcml" message, .consoleLog "error" message]

/-- `logWarning`: `Log.w("tbcml", message)` then `console.warn(message)`. -/
def logWarning (message : String) : List Effect :=
  [.androidLog "w" "tbcml" message, .consoleLog "warn" message]

/-- `logInfo`: `Log.i("tbcml", message)` then `console.info(message)`. -/
def logInfo (message : String) : List Effect :=
  [.androidLog "i" "tbcml" message, .consoleLog "info" message]

/-- `logVerbose`: `Log.v("tbcml", message)` then `console.log(message)`. -/
def logVerbose (message : String) : List Effect :=
  [.androidLog "v" "tbcml" message, .consoleLog "log" message]

/-- `logDebug`: `Log.d("tbcml", message)` then `console.log(message)`. -/
def logDebug (message : String) : List Effect :=
  [.androidLog "d" "tbcml" message, .consoleLog "log" message]

/-- `log(message, level = "info")`: the switch on `level` from the source,
falling through to `logInfo` on any unmatched level. -/
def log (message : String) (level : String := "info") : List Effect :=
  if level = "error" then logError message
  else if level = "warning" then logWarning message
  else if level = "info" then logInfo message
  else if level = "verbose" then logVerbose message
  else if level = "debug" then logDebug message
  else logInfo message

/-- The host environment: the instrumentation engine primitives the script
calls into.  Each field is one host API the script uses. -/
structure Host where
  /-- `Module.findBaseAddress(name)`: `null` or a base address. -/
  findBaseAddress : String → Option Nat
  /-- `Process.arch`. -/
  arch : String
  /-- `Process.pointerSize`. -/
  pointerSize : Nat
  /-- `currentApplication().getPackageName()`. -/
  packageName : String
  /-- `packageInfo.versionCode.value`. -/
  packageVersion : Nat
  /-- `JSON.stringify` applied to the parameter mapping. -/
  jsonStringify : List (String × String) → String
  /-- host rendering of a non-null native pointer in a template literal. -/
  ptrToString : Nat → String
  /-- the sequence of lines the buffered reader for a URL connection
  yields before `readLine()` returns `null`. -/
  fetchLines : String → List String

/-- `getBaseAddress()`: looks up `libnative-lib.so`; `null` stays `null`,
otherwise 4096 is added (libgadget offset). -/
def getBaseAddress (host : Host) : Option Nat :=
  match host.findBaseAddress "libnative-lib.so" with
  | none => none
  | some base_address => some (base_address + 4096)

/-- `getArcitecture()` (sic): `Process.arch`. -/
def getArcitecture (host : Host) : String :=
  host.arch

/-- `is_64_bit()`: `Process.pointerSize === 8`. -/
def is_64_bit (host : Host) : Bool :=
  host.pointerSize == 8

/-- `getPackageName()`. -/
def getPackageName (host : Host) : String :=
  host.packageName

/-- `getPackageVersion()`. -/
def getPackageVersion (host : Host) : Nat :=
  host.packageVersion

/-- Template-literal rendering of a nullable native pointer. -/
def showOptPtr (host : Host) : Option Nat → String
  | none => "null"
  | some p => host.ptrToString p

/-! ## Native memory model -/

/-- Native process memory: a byte at every address. -/
structure Mem where
  byte : Nat → Nat

/-- `address.readU8()`. -/
def Mem.readU8 (m : Mem) (a : Nat) : Nat :=
  m.byte a % 256

/-- Read `k` bytes little-endian starting at `a` (the host primitive
`readPointer` reads `Process.pointerSize` bytes this way). -/
def readLE (m : Mem) (a : Nat) : Nat → Nat
  | 0 => 0
  | k + 1 => m.readU8 a + 256 * readLE m (a + 1) k

/-- `address.readPointer()` with pointer size `ps`. -/
def Mem.readPointer (m : Mem) (a : Nat) (ps : Nat) : Nat :=
  readLE m a ps

/-- `address.readUtf8String()` at the byte level: the bytes from `a` up
to (not including) the first NUL byte, with an explicit fuel bound. -/
def readCString (m : Mem) (a : Nat) : Nat → List Nat
  | 0 => []
  | fuel + 1 =>
    if m.readU8 a = 0 then []
    else m.readU8 a :: readCString m (a + 1) fuel

/-- Store a list of bytes starting at `a`. -/
def writeBytes (m : Mem) (a : Nat) : List Nat → Mem
  | [] => m
  | b :: bs => writeBytes ⟨fun x => if x = a then b % 256 else m.byte x⟩ (a + 1) bs

/-- `address.writeUtf8String(content)` at the byte level: the content
bytes followed by a NUL terminator. -/
def Mem.writeUtf8String (m : Mem) (a : Nat) (content : List Nat) : Mem :=
  writeBytes m a (content ++ [0])

/-- `readStdString(address)`: tiny/heap discriminated `std::string` read.
`fuel` bounds the C-string scan (an artifact of totalising the host
primitive, not of the source). -/
def readStdString (m : Mem) (ps : Nat) (address : Nat) (fuel : Nat) : List Nat :=
  let isTiny := (m.readU8 address &&& 1) == 0
  if isTiny then
    readCString m (address + 1) fuel
  else
    readCString m (m.readPointer (address + 2 * ps) ps) fuel

/-- `writeStdString(address, content)`: writes through the location the
same discriminator selects. -/
def writeStdString (m : Mem) (ps : Nat) (address : Nat) (content : List Nat) : Mem :=
  let isTiny := (m.readU8 address &&& 1) == 0
  if isTiny then
    m.writeUtf8String (address + 1) content
  else
    m.writeUtf8String (m.readPointer (address + 2 * ps) ps) content

/-! ## Managed heap model (JString helpers) -/

/-- The managed heap as seen by the JString helpers: each address may
hold a managed string (a list of UTF-16 units); `nextFree` is where the
allocator places the next fresh object. -/
structure JHeap where
  objects : Nat → Option (List Nat)
  nextFree : Nat

/-- `readJString(address)`: `Java.cast(address, java.lang.String)` — the
managed string at `address`, `none` when the cast fails. -/
def readJString (h : JHeap) (address : Nat) : Option (List Nat) :=
  h.objects address

/-- `String.$new(content)`: allocate a fresh managed string at
`nextFree` and return its address. -/
def stringNew (h : JHeap) (content : List Nat) : JHeap × Nat :=
  (⟨fun a => if a = h.nextFree then some content else h.objects a,
    h.nextFree + 1⟩, h.nextFree)

/-- `writeJString(address, content)`: constructs a fresh Java string from
`content` and discards it; only the allocation remains. -/
def writeJString (h : JHeap) (_address : Nat) (content : List Nat) : JHeap :=
  (stringNew h content).1

/-! ## Byte buffers -/

/-- A `java.nio.ByteBuffer` as the script uses it: a `limit` and an
indexed `get` returning a signed Java byte. -/
structure ByteBuffer where
  limit : Nat
  get : Nat → Int

/-- `String.fromCharCode(x)`: the UTF-16 unit `ToUint16(x)`. -/
def fromCharCode (x : Int) : Nat :=
  (x % 65536).toNat

/-- The `for (let i = 0; i < limit; i++) data += ...` loop of
`readByteBuffer`, with the JS string modelled as its UTF-16 units. -/
def readByteBufferLoop (bb : ByteBuffer) (i : Nat) (data : List Nat) : List Nat :=
  if i < bb.limit then
    readByteBufferLoop bb (i + 1) (data ++ [fromCharCode (bb.get i)])
  else data
termination_by bb.limit - i

/-- `readByteBuffer(address)` after the cast to `java.nio.ByteBuffer`. -/
def readByteBuffer (bb : ByteBuffer) : List Nat :=
  readByteBufferLoop bb 0 []

/-! ## Class resolution -/

/-- A JavaScript error surfaced to the host. -/
inductive JsError where
  | typeError (message : String)
  deriving DecidableEq, Repr

/-- One enumerated class loader: whether `findClass(name)` succeeds
without throwing, and what `Java.ClassFactory.get(loader).use(name)`
returns (the class handle, modelled as an opaque number). -/
structure ClassLoader where
  canFind : String → Bool
  factoryUse : String → Nat

/-- The `for ... in` search of `getJavaClass`: the first loader whose
`findClass` does not throw, in enumeration order. -/
def findFactory (className : String) : List ClassLoader → Option ClassLoader
  | [] => none
  | l :: ls => if l.canFind className then some l else findFactory className ls

/-- `getJavaClass(className)`: linear search over the enumerated loaders;
when none succeeds, `classFactory` stays `undefined` and
`classFactory.use` throws a `TypeError` that propagates to the host. -/
def getJavaClass (loaders : List ClassLoader) (className : String) :
    Except JsError Nat :=
  match findFactory className loaders with
  | some l => .ok (l.factoryUse className)
  | none => .error (.typeError "cannot read property use of undefined")

/-! ## HTTP fetch -/

/-- The `while ((inputLine = bufferedReader.readLine()) != null)` loop of
`download_file`: accumulate every line, recording each `readLine` call. -/
def downloadLoop (lines : List String) (acc : String) : String × List Effect :=
  match lines with
  | [] => (acc, [.readLineCall none])
  | l :: ls =>
    let rest := downloadLoop ls (acc ++ l)
    (rest.1, .readLineCall (some l) :: rest.2)

/-- `download_file(url)`: open one connection to `url`, read lines until
`null`, close the reader, return the accumulated string. -/
def download_file (host : Host) (url : String) : String × List Effect :=
  let result := downloadLoop (host.fetchLines url) ""
  (result.1, .openConnection url :: (result.2 ++ [.closeReader]))

/-! ## The exported entry point -/

/-- The keys of the `rpc.exports` object. -/
def rpcExports : List String := ["init"]

/-- `rpc.exports.init(stage, parameters)`: five log calls (at the default
`"info"` level), returning nothing. -/
def init (host : Host) (stage : String) (parameters : List (String × String)) :
    Unit × List Effect :=
  ((),
    log ("Script loaded successfully\nStage: " ++ stage ++ "\nParameters: "
        ++ host.jsonStringify parameters)
    ++ log ("Base address: " ++ showOptPtr host (getBaseAddress host))
    ++ log ("Architecture: " ++ getArcitecture host)
    ++ log ("Package name: " ++ getPackageName host)
    ++ log ("Package version: " ++ toString (getPackageVersion host)))

/-! ## Concrete instances used by witnesses -/

/-- A concrete host whose module lookup finds the library at 100. -/
def hostA : Host :=
  ⟨fun _ => some 100, "arm64", 8, "jp.co.ponos.battlecats", 1,
   fun _ => "", fun p => toString p, fun _ => ["a", "b"]⟩

/-- All-zero native memory. -/
def mem0 : Mem := ⟨fun _ => 0⟩

/-- A loader whose `findClass` always throws. -/
def loaderFail : ClassLoader := ⟨fun _ => false, fun _ => 0⟩

/-- A loader whose `findClass` always succeeds; its factory yields 7. -/
def loaderOk : ClassLoader := ⟨fun _ => true, fun _ => 7⟩

/-- A two-byte buffer holding bytes 65 and -120. -/
def bbW : ByteBuffer := ⟨2, fun i => if i = 0 then 65 else -120⟩

/-- A heap with one managed string at 0; the allocator points at 1. -/
def heapW : JHeap := ⟨fun a => if a = 0 then some [72] else none, 1⟩

end BaseScript

namespace BaseScript

/-! ## Helper lemmas -/

theorem writeBytes_outside (bs : List Nat) (m : Mem) (a x : Nat)
    (h : x < a ∨ a + bs.length ≤ x) :
    (writeBytes m a bs).byte x = m.byte x := by
  induction bs generalizing m a with
  | nil => rfl
  | cons b bs ih =>
    show (writeBytes ⟨fun y => if y = a then b % 256 else m.byte y⟩ (a + 1) bs).byte x
        = m.byte x
    rw [ih ⟨fun y => if y = a then b % 256 else m.byte y⟩ (a + 1)
      (by simp at h ⊢; omega)]
    have hx : x ≠ a := by simp at h; omega
    simp [hx]

theorem readCString_writeUtf8 (content : List Nat) (m : Mem) (a fuel : Nat)
    (hbytes : ∀ b ∈ content, 0 < b ∧ b < 256)
    (hfuel : content.length ≤ fuel) :
    readCString (m.writeUtf8String a content) a fuel = content := by
  induction content generalizing m a fuel with
  | nil =>
    cases fuel with
    | zero => rfl
    | succ f =>
      have hz : (m.writeUtf8String a []).byte a = 0 := by
        show (writeBytes ⟨fun y => if y = a then 0 % 256 else m.byte y⟩ (a + 1) []).byte a = 0
        simp [writeBytes]
      simp [readCString, Mem.readU8, hz]
  | cons b bs ih =>
    obtain ⟨hb0, hb256⟩ := hbytes b (by simp)
    cases fuel with
    | zero => simp at hfuel
    | succ f =>
      have hmod : b % 256 = b := Nat.mod_eq_of_lt hb256
      have hw : m.writeUtf8String a (b :: bs) =
          Mem.writeUtf8String ⟨fun y => if y = a then b else m.byte y⟩ (a + 1) bs := by
        show writeBytes m a ((b :: bs) ++ [0]) = _
        simp only [List.cons_append, writeBytes, hmod]
        rfl
      rw [hw]
      have hbyte : (Mem.writeUtf8String
          ⟨fun y => if y = a then b else m.byte y⟩ (a + 1) bs).byte a = b := by
        rw [Mem.writeUtf8String, writeBytes_outside _ _ _ _ (Or.inl (by omega))]
        simp
      have hbne : ¬ (b = 0) := by omega
      simp only [readCString, Mem.readU8, hbyte, hmod]
      rw [if_neg hbne]
      exact congrArg (b :: ·) (ih _ (a + 1) f
        (fun x hx => hbytes x (by simp [hx])) (by simpa using hfuel))

theorem readLE_congr (k : Nat) (m m' : Mem) (a : Nat)
    (h : ∀ i, i < k → m'.byte (a + i) = m.byte (a + i)) :
    readLE m' a k = readLE m a k := by
  induction k generalizing a with
  | zero => rfl
  | succ j ih =>
    have h0 : m'.byte a = m.byte a := by
      have := h 0 (by omega); simpa using this
    simp only [readLE, Mem.readU8, h0]
    rw [ih (a + 1) (fun i hi => by
      have := h (i + 1) (by omega)
      rwa [show a + (i + 1) = a + 1 + i by omega] at this)]

theorem findFactory_first (className : String) (pre : List ClassLoader)
    (l : ClassLoader) (post : List ClassLoader)
    (hpre : ∀ x ∈ pre, x.canFind className = false)
    (hl : l.canFind className = true) :
    findFactory className (pre ++ l :: post) = some l := by
  induction pre with
  | nil => simp [findFactory, hl]
  | cons p ps ih =>
    have hp := hpre p (by simp)
    simp only [List.cons_append, findFactory, hp, Bool.false_eq_true, if_false]
    exact ih (fun x hx => hpre x (by simp [hx]))

theorem findFactory_none (className : String) (loaders : List ClassLoader)
    (h : ∀ x ∈ loaders, x.canFind className = false) :
    findFactory className loaders = none := by
  induction loaders with
  | nil => rfl
  | cons p ps ih =>
    have hp := h p (by simp)
    simp only [findFactory, hp, Bool.false_eq_true, if_false]
    exact ih (fun x hx => h x (by simp [hx]))

theorem downloadLoop_spec (lines : List String) (acc : String) :
    downloadLoop lines acc =
      (lines.foldl (fun a l => a ++ l) acc,
       lines.map (fun l => Effect.readLineCall (some l)) ++ [Effect.readLineCall none]) := by
  induction lines generalizing acc with
  | nil => rfl
  | cons l ls ih => simp [downloadLoop, ih]

theorem readByteBufferLoop_spec (bb : ByteBuffer) :
    ∀ n i data, bb.limit - i = n →
      readByteBufferLoop bb i data =
        data ++ (List.range' i n).map (fun j => fromCharCode (bb.get j)) := by
  intro n
  induction n with
  | zero =>
    intro i data h
    rw [readByteBufferLoop]
    have hni : ¬ i < bb.limit := by omega
    simp [hni]
  | succ k ih =>
    intro i data h
    rw [readByteBufferLoop]
    have hi : i < bb.limit := by omega
    simp only [hi, if_true]
    rw [ih (i + 1) (data ++ [fromCharCode (bb.get i)]) (by omega)]
    simp [List.range'_succ]

/-! ## Claim theorems -/

/-- Claim C1: for every stage value and parameter mapping, the exported
`init(stage, parameters)` returns nothing, every effect it produces is a
log emission, and `init` is the only entry in `rpc.exports`. -/
theorem init_frame (host : Host) (stage : String)
    (parameters : List (String × String)) :
    (init host stage parameters).1 = () ∧
    (init host stage parameters).2.all Effect.isLog = true ∧
    rpcExports = ["init"] := by
  refine ⟨rfl, ?_, rfl⟩
  simp [init, log, logError, logWarning, logInfo, logVerbose, logDebug,
    Effect.isLog]

/-- Claim C2: `readStdString(address)` dispatches on the least-significant
bit of the byte at `address`: when it is 0 the string is read inline at
`address + 1`, otherwise at the pointer stored at
`address + 2 * pointerSize`. -/
theorem readStdString_spec (m : Mem) (ps address fuel : Nat) :
    (m.readU8 address % 2 = 0 →
      readStdString m ps address fuel = readCString m (address + 1) fuel) ∧
    (m.readU8 address % 2 = 1 →
      readStdString m ps address fuel =
        readCString m (m.readPointer (address + 2 * ps) ps) fuel) := by
  constructor
  · intro h
    have hc : ((m.readU8 address &&& 1) == 0) = true := by
      rw [Nat.and_one_is_mod, h]; rfl
    simp only [readStdString]
    rw [if_pos hc]
  · intro h
    have hc : ¬ ((m.readU8 address &&& 1) == 0) = true := by
      rw [Nat.and_one_is_mod, h]; decide
    simp only [readStdString]
    rw [if_neg hc]

/-- Witness for C2: all-zero memory has an even discriminator byte. -/
theorem readStdString_spec_witness :
    readStdString mem0 8 0 3 = readCString mem0 1 3 :=
  (readStdString_spec mem0 8 0 3).1 rfl

/-- Claim C3: `getBaseAddress()` returns `null` exactly when the host
lookup of `libnative-lib.so` returns `null`, and otherwise the found base
address plus 4096. -/
theorem getBaseAddress_spec (host : Host) :
    (getBaseAddress host = none ↔
      host.findBaseAddress "libnative-lib.so" = none) ∧
    (∀ b, host.findBaseAddress "libnative-lib.so" = some b →
      getBaseAddress host = some (b + 4096)) := by
  constructor
  · unfold getBaseAddress
    cases h : host.findBaseAddress "libnative-lib.so" <;> simp
  · intro b hb
    unfold getBaseAddress
    rw [hb]

/-- Witness for C3: a host that finds the module at 100. -/
theorem getBaseAddress_spec_witness :
    getBaseAddress hostA = some (100 + 4096) :=
  (getBaseAddress_spec hostA).2 100 rfl

/-- Claim C4: when every loader before `l` fails `findClass` and `l`
succeeds, `getJavaClass` returns the class from `l`'s factory, whatever
loaders come after `l`. -/
theorem getJavaClass_first_success (pre : List ClassLoader) (l : ClassLoader)
    (post : List ClassLoader) (className : String)
    (hpre : ∀ x ∈ pre, x.canFind className = false)
    (hl : l.canFind className = true) :
    getJavaClass (pre ++ l :: post) className = .ok (l.factoryUse className) := by
  unfold getJavaClass
  rw [findFactory_first className pre l post hpre hl]

/-- Witness for C4: the failing loader is skipped; the succeeding one is
used; a trailing loader is irrelevant. -/
theorem getJavaClass_first_success_witness :
    getJavaClass [loaderFail, loaderOk, loaderFail] "a.b.C" = .ok 7 :=
  getJavaClass_first_success [loaderFail] loaderOk [loaderFail] "a.b.C"
    (fun x hx => by simp at hx; subst hx; rfl) rfl

/-- Claim C5: when no enumerated loader resolves `className`, the
`classFactory` variable stays undefined and the final `.use` call throws
an uncaught error that propagates to the host. -/
theorem getJavaClass_all_fail (loaders : List ClassLoader) (className : String)
    (h : ∀ x ∈ loaders, x.canFind className = false) :
    getJavaClass loaders className =
      .error (.typeError "cannot read property use of undefined") := by
  unfold getJavaClass
  rw [findFactory_none className loaders h]

/-- Witness for C5: a single always-failing loader. -/
theorem getJavaClass_all_fail_witness :
    getJavaClass [loaderFail] "a.b.C" =
      .error (.typeError "cannot read property use of undefined") :=
  getJavaClass_all_fail [loaderFail] "a.b.C"
    (fun x hx => by simp at hx; subst hx; rfl)

/-- Claim C6: `download_file(url)` opens one connection to `url`, reads
each response line in order until `readLine` yields `null`, closes the
reader, and returns the concatenation of all response lines. -/
theorem download_file_spec (host : Host) (url : String) :
    (download_file host url).1 =
      (host.fetchLines url).foldl (fun a l => a ++ l) "" ∧
    (download_file host url).2 =
      Effect.openConnection url ::
        ((host.fetchLines url).map (fun l => Effect.readLineCall (some l))
          ++ [Effect.readLineCall none, Effect.closeReader]) := by
  unfold download_file
  rw [downloadLoop_spec]
  simp

/-- Claim C7: `log(message, level)` dispatches to the helper matching
each of the five known levels, and any other level — including the
omitted default — behaves as `logInfo(message)`. -/
theorem log_dispatch (message level : String) :
    (level = "error" → log message level = logError message) ∧
    (level = "warning" → log message level = logWarning message) ∧
    (level = "info" → log message level = logInfo message) ∧
    (level = "verbose" → log message level = logVerbose message) ∧
    (level = "debug" → log message level = logDebug message) ∧
    (level ∉ ["error", "warning", "info", "verbose", "debug"] →
      log message level = logInfo message) ∧
    log message = logInfo message := by
  refine ⟨fun h => by simp [log, h], fun h => by simp [log, h],
    fun h => by simp [log, h], fun h => by simp [log, h],
    fun h => by simp [log, h], fun h => ?_, by simp [log]⟩
  simp only [List.mem_cons, List.not_mem_nil, or_false, not_or] at h
  obtain ⟨h1, h2, h3, h4, h5⟩ := h
  simp [log, h1, h2, h3, h4, h5]

/-- Witness for C7: a matched level and an unknown level. -/
theorem log_dispatch_witness :
    log "m" "debug" = logDebug "m" ∧ log "m" "custom" = logInfo "m" :=
  ⟨(log_dispatch "m" "debug").2.2.2.2.1 rfl,
   (log_dispatch "m" "custom").2.2.2.2.2.1 (by decide)⟩

/-- Claim C8: `readByteBuffer(address)` yields a string whose length is
the buffer limit and whose unit at each index `i < limit` is the
character code of the buffer byte at `i`. -/
theorem readByteBuffer_spec (bb : ByteBuffer) :
    (readByteBuffer bb).length = bb.limit ∧
    ∀ i, i < bb.limit →
      (readByteBuffer bb)[i]? = some (fromCharCode (bb.get i)) := by
  have hloop := readByteBufferLoop_spec bb bb.limit 0 [] (by omega)
  rw [readByteBuffer, hloop]
  constructor
  · simp
  · intro i hi
    simp [List.getElem?_map, List.getElem?_range', hi]

/-- Witness for C8: a two-byte buffer; the negative byte wraps to a
UTF-16 unit. -/
theorem readByteBuffer_spec_witness :
    (readByteBuffer bbW)[1]? = some (fromCharCode (bbW.get 1)) :=
  (readByteBuffer_spec bbW).2 1 (by decide)

/-- Claim C9: round trip of the native string helpers.  For content whose
bytes fit a C string, enough scan fuel, and — in the heap case — a heap
block disjoint from the discriminator byte and the stored pointer field,
`readStdString` after `writeStdString` returns the content, and the
discriminator byte at `address` is unchanged. -/
theorem writeStdString_readStdString_roundtrip
    (m : Mem) (ps address fuel : Nat) (content : List Nat)
    (hbytes : ∀ b ∈ content, 0 < b ∧ b < 256)
    (hfuel : content.length ≤ fuel)
    (hheap : m.readU8 address % 2 = 1 →
      (address < m.readPointer (address + 2 * ps) ps ∨
        m.readPointer (address + 2 * ps) ps + content.length + 1 ≤ address) ∧
      (address + 3 * ps ≤ m.readPointer (address + 2 * ps) ps ∨
        m.readPointer (address + 2 * ps) ps + content.length + 1
          ≤ address + 2 * ps)) :
    readStdString (writeStdString m ps address content) ps address fuel
      = content ∧
    (writeStdString m ps address content).byte address = m.byte address := by
  rcases Nat.mod_two_eq_zero_or_one (m.readU8 address) with h | h
  · have hc : ((m.readU8 address &&& 1) == 0) = true := by
      rw [Nat.and_one_is_mod, h]; rfl
    have hw : writeStdString m ps address content =
        m.writeUtf8String (address + 1) content := by
      simp only [writeStdString]
      rw [if_pos hc]
    have hbpres : (m.writeUtf8String (address + 1) content).byte address
        = m.byte address := by
      rw [Mem.writeUtf8String]
      exact writeBytes_outside _ _ _ _ (Or.inl (by omega))
    have hu : (m.writeUtf8String (address + 1) content).readU8 address
        = m.readU8 address := by
      simp [Mem.readU8, hbpres]
    have hc2 : (((m.writeUtf8String (address + 1) content).readU8 address &&& 1)
        == 0) = true := by
      rw [hu, Nat.and_one_is_mod, h]; rfl
    refine ⟨?_, by rw [hw]; exact hbpres⟩
    rw [hw]
    simp only [readStdString]
    rw [if_pos hc2]
    exact readCString_writeUtf8 content m (address + 1) fuel hbytes hfuel
  · obtain ⟨hd1, hd2⟩ := hheap h
    have hc : ¬ ((m.readU8 address &&& 1) == 0) = true := by
      rw [Nat.and_one_is_mod, h]; decide
    have hw : writeStdString m ps address content =
        m.writeUtf8String (m.readPointer (address + 2 * ps) ps) content := by
      simp only [writeStdString]
      rw [if_neg hc]
    have hbpres : (m.writeUtf8String (m.readPointer (address + 2 * ps) ps)
        content).byte address = m.byte address := by
      rw [Mem.writeUtf8String]
      refine writeBytes_outside _ _ _ _ ?_
      simp only [List.length_append, List.length_cons, List.length_nil]
      omega
    have hppres : ∀ i, i < ps →
        (m.writeUtf8String (m.readPointer (address + 2 * ps) ps)
          content).byte (address + 2 * ps + i) = m.byte (address + 2 * ps + i) := by
      intro i hi
      rw [Mem.writeUtf8String]
      refine writeBytes_outside _ _ _ _ ?_
      simp only [List.length_append, List.length_cons, List.length_nil]
      omega
    have hu : (m.writeUtf8String (m.readPointer (address + 2 * ps) ps)
        content).readU8 address = m.readU8 address := by
      simp [Mem.readU8, hbpres]
    have hc2 : ¬ (((m.writeUtf8String (m.readPointer (address + 2 * ps) ps)
        content).readU8 address &&& 1) == 0) = true := by
      rw [hu, Nat.and_one_is_mod, h]; decide
    have hptr : (m.writeUtf8String (m.readPointer (address + 2 * ps) ps)
        content).readPointer (address + 2 * ps) ps =
        m.readPointer (address + 2 * ps) ps :=
      readLE_congr ps m _ (address + 2 * ps) hppres
    refine ⟨?_, by rw [hw]; exact hbpres⟩
    rw [hw]
    simp only [readStdString]
    rw [if_neg hc2, hptr]
    exact readCString_writeUtf8 content m
      (m.readPointer (address + 2 * ps) ps) fuel hbytes hfuel

/-- Witness for C9: writing then reading two bytes through a tiny
(even-discriminator) string in all-zero memory. -/
theorem writeStdString_readStdString_roundtrip_witness :
    readStdString (writeStdString mem0 8 0 [104, 105]) 8 0 2 = [104, 105] ∧
    (writeStdString mem0 8 0 [104, 105]).byte 0 = mem0.byte 0 :=
  writeStdString_readStdString_roundtrip mem0 8 0 2 [104, 105]
    (by decide) (by decide) (fun hh => absurd hh (by decide))

/-- Claim C10: `writeJString(address, content)` constructs a fresh Java
string and discards it, so `readJString(address)` is unchanged, for any
address that holds a managed string on a heap whose allocator slot is
free. -/
theorem writeJString_preserves_readJString (h : JHeap) (address : Nat)
    (content s : List Nat)
    (hfresh : h.objects h.nextFree = none)
    (hlive : h.objects address = some s) :
    readJString (writeJString h address content) address =
      readJString h address := by
  have hne : address ≠ h.nextFree := by
    intro e
    rw [e, hfresh] at hlive
    exact Option.noConfusion hlive
  simp [readJString, writeJString, stringNew, hne]

/-- Witness for C10: a heap with one string at 0 and a free slot at 1. -/
theorem writeJString_preserves_readJString_witness :
    readJString (writeJString heapW 0 [5]) 0 = readJString heapW 0 :=
  writeJString_preserves_readJString heapW 0 [5] [72] rfl rfl

end BaseScript
